import Mathlib

/-!
Shallow embedding of the NYC motor-vehicle-collisions dashboard
(`main.py`): the dataset loader, the query layer (injury-threshold
filter, hour filter, top-streets-by-category pipeline) and the
aggregation layer (minute histogram, two-column stacking, Pearson
correlation), together with proofs of the specification's claims.

Modelling conventions:
* a pandas DataFrame is a `List Record` (rows in table order) plus,
  where a claim is about the schema, a `List String` of column names;
* a float cell that may be NaN is an `Option Int` / `Option String`
  (the numeric columns hold integral counts); pandas comparisons with
  NaN yield `False`, embedded as the `none` branch of the predicates;
* the parsed `date_time` column is a `Nat` timestamp counted in
  minutes, so `hourOf`/`minuteOf` are the `.dt.hour` / `.dt.minute`
  accessors (a loaded table always has a valid timestamp: with
  `parse_dates` an unparsable column would make the `.dt` accessor
  fail at line 35 before any view is produced).
-/

namespace Collisions

/-- One row of the loaded table (`data` in `main.py`), with the columns
the dashboard reads.  Missing cells are `none`. -/
structure Record where
  date_time : Nat
  latitude : Option Int
  longitude : Option Int
  injured_persons : Option Int
  number_of_pedestrians_injured : Option Int
  number_of_cyclist_injured : Option Int
  number_of_motorist_injured : Option Int
  number_of_persons_killed : Option Int
  borough : Option String
  on_street_name : Option String
  contributing_factor_vehicle_1 : Option String
  contributing_factor_vehicle_2 : Option String
  vehicle_type_code_1 : Option String
  vehicle_type_code_2 : Option String
deriving DecidableEq

/-- `.dt.hour` of the parsed timestamp. -/
def hourOf (t : Nat) : Nat := t / 60 % 24

/-- `.dt.minute` of the parsed timestamp. -/
def minuteOf (t : Nat) : Nat := t % 60

/-- `data.dropna(subset=['latitude', 'longitude'])` keeps a row iff both
coordinates are present (`main.py` line 14). -/
def hasCoords (r : Record) : Bool := r.latitude.isSome && r.longitude.isSome

/-- Row-level effect of `load_data` (`main.py` lines 12-18): the only
row transformation is the drop of rows missing latitude or longitude. -/
def load_rows (rows : List Record) : List Record := rows.filter hasCoords

/-- `data.query("injured_persons >= @injured_people")` (`main.py`
line 30): pandas evaluates `NaN >= t` as `False`, so a row with a
missing `injured_persons` cell is filtered out. -/
def filterByMinInjured (rows : List Record) (t : Int) : List Record :=
  rows.filter fun r =>
    match r.injured_persons with
    | some v => decide (t ≤ v)
    | none => false

/-- `data[data[DATE_TIME].dt.hour == hour]` (`main.py` line 35). -/
def filterByHour (rows : List Record) (h : Nat) : List Record :=
  rows.filter fun r => hourOf r.date_time == h

/- Concrete rows used by the closed witness/counterexample theorems. -/

/-- A row with 5 persons injured, 3 motorists injured, street name
`BROADWAY`, both coordinates present. -/
def rInj : Record :=
  ⟨600, some 1, some 2, some 5, some 1, none, some 3, some 0,
   some "QUEENS", some "BROADWAY", some "Speeding", none, some "Sedan", none⟩

/-- A row whose `injured_persons` cell is missing (NaN). -/
def rNaN : Record :=
  ⟨30, some 3, some 4, none, none, none, none, none,
   none, none, none, some "Glare", none, some "Bike"⟩

/-- Claim C1: for any table and any threshold `t` in `[0, 19]`, every
record returned by `filterByMinInjured` has a present total-injured
count that is `≥ t`, and the output is a sublist of the input (subset,
original relative order preserved). -/
theorem filterByMinInjured_spec (rows : List Record) (t : Int)
    (h0 : 0 ≤ t) (h19 : t ≤ 19) :
    (∀ r ∈ filterByMinInjured rows t,
        ∃ v, r.injured_persons = some v ∧ t ≤ v) ∧
      (filterByMinInjured rows t).Sublist rows := by
  constructor
  · intro r hr
    have hmem := List.mem_filter.mp hr
    rcases hv : r.injured_persons with _ | v
    · rw [hv] at hmem
      simp at hmem
    · refine ⟨v, rfl, ?_⟩
      rw [hv] at hmem
      simpa using hmem.2
  · exact List.filter_sublist _

/-- Witness for C1 at the concrete table `[rInj, rNaN]`, threshold 2. -/
theorem filterByMinInjured_spec_witness :
    (∀ r ∈ filterByMinInjured [rInj, rNaN] 2,
        ∃ v, r.injured_persons = some v ∧ 2 ≤ v) ∧
      (filterByMinInjured [rInj, rNaN] 2).Sublist [rInj, rNaN] :=
  filterByMinInjured_spec [rInj, rNaN] 2 (by decide) (by decide)

/-- Claim C9: a row whose total-injured cell is missing is never
returned by `filterByMinInjured`, for every threshold including 0 (the
NaN comparison is falsy, so the row is silently dropped). -/
theorem filterByMinInjured_drops_missing (rows : List Record) (t : Int)
    (r : Record) (hr : r ∈ filterByMinInjured rows t) :
    r.injured_persons.isSome := by
  have hmem := List.mem_filter.mp hr
  rcases hv : r.injured_persons with _ | v
  · rw [hv] at hmem
    simp at hmem
  · rfl

/-- Witness for C9: `rInj` survives the threshold-0 filter on
`[rInj, rNaN]` and indeed has a present total-injured cell. -/
theorem filterByMinInjured_drops_missing_witness :
    rInj ∈ filterByMinInjured [rInj, rNaN] 0 ∧ rInj.injured_persons.isSome :=
  ⟨by decide, filterByMinInjured_drops_missing [rInj, rNaN] 0 rInj (by decide)⟩

/-- Hour-of-day is always in `0..23`. -/
theorem hourOf_lt (t : Nat) : hourOf t < 24 := Nat.mod_lt _ (by norm_num)

/-- Minute-of-hour is always in `0..59`. -/
theorem minuteOf_lt (t : Nat) : minuteOf t < 60 := Nat.mod_lt _ (by norm_num)

/-- Counting the rows of `l` whose key equals `i`, summed over all
possible keys `i < N`, counts every row exactly once. -/
theorem sum_countP_key {N : Nat} (key : Record → Nat) (l : List Record)
    (hk : ∀ r ∈ l, key r < N) :
    (∑ i : Fin N, l.countP (fun r => key r == i.val)) = l.length := by
  induction l with
  | nil => simp
  | cons a l ih =>
    have ha : key a < N := hk a (List.mem_cons_self a l)
    have hl : ∀ r ∈ l, key r < N := fun r hr => hk r (List.mem_cons_of_mem a hr)
    simp only [List.countP_cons, List.length_cons]
    rw [Finset.sum_add_distrib, ih hl]
    congr 1
    have hcong : ∀ i : Fin N,
        (if (key a == i.val) = true then 1 else 0)
          = (if i = (⟨key a, ha⟩ : Fin N) then 1 else 0) := by
      intro i
      by_cases h : i = (⟨key a, ha⟩ : Fin N)
      · subst h
        simp
      · have hne : (key a == i.val) = false := by
          apply beq_eq_false_iff_ne.mpr
          intro hEq
          exact h (Fin.ext hEq.symm)
        simp [h, hne]
    rw [Finset.sum_congr rfl fun i _ => hcong i]
    simp

/-- Claim C7: the hour filters for `h = 0..23` partition any table:
every row lies in exactly one hour bucket, and the bucket sizes sum to
the size of the table. -/
theorem filterByHour_partition (rows : List Record) :
    (∀ r ∈ rows, ∃! h : Fin 24, r ∈ filterByHour rows h.val) ∧
      (∑ h : Fin 24, (filterByHour rows h.val).length) = rows.length := by
  constructor
  · intro r hr
    refine ⟨⟨hourOf r.date_time, hourOf_lt _⟩, List.mem_filter.mpr ⟨hr, by simp⟩, ?_⟩
    intro h' hh'
    have hpred := (List.mem_filter.mp hh').2
    exact Fin.ext (beq_iff_eq.mp hpred).symm
  · have hlen : ∀ h : Fin 24,
        (filterByHour rows h.val).length
          = rows.countP (fun r => hourOf r.date_time == h.val) := by
      intro h
      simp [filterByHour, List.countP_eq_length_filter]
    rw [Finset.sum_congr rfl fun h _ => hlen h]
    exact sum_countP_key _ rows fun r _ => hourOf_lt _

/-- One bin of `np.histogram(-, bins=60, range=(0, 60))`: bin `i` is the
half-open interval `[i, i+1)`, except the last bin which is the closed
interval `[59, 60]` (`main.py` line 65). -/
def inBin60 (i : Nat) (v : Nat) : Bool :=
  if i == 59 then decide (59 ≤ v) && decide (v ≤ 60)
  else decide (i ≤ v) && decide (v < i + 1)

/-- `np.histogram(vals, bins=60, range=(0, 60))[0]`. -/
def np_histogram60 (vals : List Nat) (i : Fin 60) : Nat :=
  vals.countP fun v => inBin60 i.val v

/-- `np.histogram(filtered[DATE_TIME].dt.minute, bins=60, range=(0, 60))[0]`
(`main.py` line 65). -/
def minuteHistogram (rows : List Record) (i : Fin 60) : Nat :=
  np_histogram60 (rows.map fun r => minuteOf r.date_time) i

/-- For minute values (`< 60`), histogram bin `i` is hit exactly by the
value `i`. -/
theorem inBin60_eq_beq (i : Fin 60) (v : Nat) (hv : v < 60) :
    (inBin60 i.val v ↔ v = i.val) := by
  rcases i with ⟨i, hi⟩
  unfold inBin60
  rcases eq_or_ne i 59 with h | h
  · subst h
    simp only [Fin.val_mk]
    rw [if_pos (by simp)]
    simp only [Bool.and_eq_true, decide_eq_true_eq]
    omega
  · rw [if_neg (by simpa using h)]
    simp only [Bool.and_eq_true, decide_eq_true_eq, Fin.val_mk]
    omega

/-- Claim C6: on any hour-filtered table the 60 minute-histogram bins
sum to the number of rows of that table, and bin `i` counts exactly the
rows whose timestamp minute equals `i`. -/
theorem minuteHistogram_spec (rows : List Record) (h : Nat) :
    (∑ i : Fin 60, minuteHistogram (filterByHour rows h) i)
        = (filterByHour rows h).length ∧
      (∀ i : Fin 60, minuteHistogram (filterByHour rows h) i
        = (filterByHour rows h).countP
            (fun r => minuteOf r.date_time == i.val)) := by
  have hbin : ∀ i : Fin 60, minuteHistogram (filterByHour rows h) i
      = (filterByHour rows h).countP (fun r => minuteOf r.date_time == i.val) := by
    intro i
    unfold minuteHistogram np_histogram60
    rw [List.countP_map]
    apply List.countP_congr
    intro r _
    simp only [Function.comp_apply, beq_iff_eq]
    exact inBin60_eq_beq i _ (minuteOf_lt _)
  refine ⟨?_, hbin⟩
  rw [Finset.sum_congr rfl fun i _ => hbin i]
  exact sum_countP_key _ _ fun r _ => minuteOf_lt _

/-- `data.query("… >= 1")` for one of the three per-category injury
columns: pandas keeps a row iff the cell is present and `≥ 1`. -/
def injuredAtLeastOne (f : Record → Option Int) (r : Record) : Bool :=
  match f r with
  | some v => decide (1 ≤ v)
  | none => false

/-- One branch of `main.py` lines 74-82:
`query(col >= 1)[["on_street_name", col]].sort_values(by=col,
ascending=False).dropna(how="any")[:n]`.  The projected count is the
cell's value (the preceding query guarantees the cell is present, so
the `getD 0` default is never taken on kept rows); `dropna` after the
sort drops the rows with a missing street name; the source fixes
`n = 5`. -/
def streetPipeline (rows : List Record) (f : Record → Option Int) (n : Nat) :
    List (Option String × Int) :=
  (((((rows.filter (injuredAtLeastOne f)).map
        fun r => (r.on_street_name, (f r).getD 0)).mergeSort
        fun a b => decide (b.2 ≤ a.2)).filter
        fun p => p.1.isSome).take n)

/-- The `if select == … / elif / else` dispatch of `main.py` lines
74-82.  Note the final branch is a bare `else`: any string other than
`"Pedestrians"` and `"Cyclists"` selects the motorist columns. -/
def topStreetsByCategory (rows : List Record) (select : String) (n : Nat) :
    List (Option String × Int) :=
  if select == "Pedestrians" then
    streetPipeline rows (fun r => r.number_of_pedestrians_injured) n
  else if select == "Cyclists" then
    streetPipeline rows (fun r => r.number_of_cyclist_injured) n
  else
    streetPipeline rows (fun r => r.number_of_motorist_injured) n

/-- The street pipeline output is sorted non-increasing by count, has
at most `n` entries, and every entry has count `≥ 1` and a present
street name. -/
theorem streetPipeline_spec (rows : List Record) (f : Record → Option Int) (n : Nat) :
    (streetPipeline rows f n).Pairwise
        (fun a b : Option String × Int => b.2 ≤ a.2) ∧
      (streetPipeline rows f n).length ≤ n ∧
      ∀ p ∈ streetPipeline rows f n, 1 ≤ p.2 ∧ p.1.isSome := by
  have hsorted :
      (((rows.filter (injuredAtLeastOne f)).map
          fun r => (r.on_street_name, (f r).getD 0)).mergeSort
          fun a b => decide (b.2 ≤ a.2)).Pairwise
        (fun a b : Option String × Int => b.2 ≤ a.2) := by
    have hpair :
        (((rows.filter (injuredAtLeastOne f)).map
            fun r => (r.on_street_name, (f r).getD 0)).mergeSort
            fun a b => decide (b.2 ≤ a.2)).Pairwise
          (fun a b : Option String × Int => decide (b.2 ≤ a.2) = true) :=
      List.sorted_mergeSort
        (fun a b c hab hbc => by
          simp only [decide_eq_true_eq] at hab hbc ⊢
          exact le_trans hbc hab)
        (fun a b => by
          simp only [Bool.or_eq_true, decide_eq_true_eq]
          exact le_total b.2 a.2)
        ((rows.filter (injuredAtLeastOne f)).map
          fun r => (r.on_street_name, (f r).getD 0))
    exact hpair.imp fun h => by simpa using h
  refine ⟨?_, ?_, ?_⟩
  · exact List.Pairwise.sublist (List.take_sublist _ _) (hsorted.filter _)
  · exact List.length_take_le _ _
  · intro p hp
    have hp1 : p ∈ ((((rows.filter (injuredAtLeastOne f)).map
        fun r => (r.on_street_name, (f r).getD 0)).mergeSort
        fun a b => decide (b.2 ≤ a.2)).filter
        fun p => p.1.isSome) := (List.take_sublist _ _).subset hp
    have hp2 := List.mem_filter.mp hp1
    have hp3 := List.mem_mergeSort.mp hp2.1
    rcases List.mem_map.mp hp3 with ⟨r, hrmem, hrEq⟩
    have hkeep := (List.mem_filter.mp hrmem).2
    refine ⟨?_, by simpa using hp2.2⟩
    subst hrEq
    unfold injuredAtLeastOne at hkeep
    rcases hv : f r with _ | v
    · rw [hv] at hkeep
      simp at hkeep
    · rw [hv] at hkeep
      simp only [decide_eq_true_eq] at hkeep
      simpa [hv] using hkeep

/-- Claim C5: for a category in `{Pedestrians, Cyclists, Motorists}`
the top-streets output is sorted non-increasing by the category's
injury count, has length at most `n`, and every returned entry has
count `≥ 1` and a present street name. -/
theorem topStreetsByCategory_spec (rows : List Record) (select : String) (n : Nat)
    (hsel : select = "Pedestrians" ∨ select = "Cyclists" ∨ select = "Motorists") :
    (topStreetsByCategory rows select n).Pairwise
        (fun a b : Option String × Int => b.2 ≤ a.2) ∧
      (topStreetsByCategory rows select n).length ≤ n ∧
      ∀ p ∈ topStreetsByCategory rows select n, 1 ≤ p.2 ∧ p.1.isSome := by
  rcases hsel with h | h | h <;> subst h <;> unfold topStreetsByCategory
  · rw [if_pos (by decide)]
    exact streetPipeline_spec rows _ n
  · rw [if_neg (by decide), if_pos (by decide)]
    exact streetPipeline_spec rows _ n
  · rw [if_neg (by decide), if_neg (by decide)]
    exact streetPipeline_spec rows _ n

/-- Witness for C5 at the one-row table `[rInj]`, category
`Pedestrians`, `n = 5`. -/
theorem topStreetsByCategory_spec_witness :
    (topStreetsByCategory [rInj] "Pedestrians" 5).Pairwise
        (fun a b : Option String × Int => b.2 ≤ a.2) ∧
      (topStreetsByCategory [rInj] "Pedestrians" 5).length ≤ 5 ∧
      ∀ p ∈ topStreetsByCategory [rInj] "Pedestrians" 5, 1 ≤ p.2 ∧ p.1.isSome :=
  topStreetsByCategory_spec [rInj] "Pedestrians" 5 (Or.inl rfl)

/-- Counterexample to claim C2: an invalid category label is not
rejected.  At the concrete table `[rInj]` the label `"Helicopters"`
produces the normal (non-empty) motorist ranking instead of failing. -/
theorem topStreetsByCategory_invalid_not_rejected :
    topStreetsByCategory [rInj] "Helicopters" 5 = [(some "BROADWAY", 3)] ∧
      topStreetsByCategory [rInj] "Helicopters" 5
        = topStreetsByCategory [rInj] "Motorists" 5 := by
  constructor
  · unfold topStreetsByCategory
    rw [if_neg (by decide), if_neg (by decide)]
    unfold streetPipeline
    simp [rInj, injuredAtLeastOne]
  · unfold topStreetsByCategory
    rw [if_neg (by decide), if_neg (by decide), if_neg (by decide),
      if_neg (by decide)]

/-- Claim C2 as amended: a category label outside
`{Pedestrians, Cyclists}` is not rejected; the bare `else` branch
silently treats it as `Motorists`, so the result coincides with the
`Motorists` ranking. -/
theorem topStreetsByCategory_invalid_defaults (rows : List Record)
    (select : String) (n : Nat)
    (h1 : select ≠ "Pedestrians") (h2 : select ≠ "Cyclists") :
    topStreetsByCategory rows select n = topStreetsByCategory rows "Motorists" n := by
  unfold topStreetsByCategory
  rw [if_neg (by simpa using h1), if_neg (by simpa using h2),
    if_neg (by decide), if_neg (by decide)]

/-- Witness for the amended C2 at the concrete invalid label
`"Helicopters"`. -/
theorem topStreetsByCategory_invalid_defaults_witness :
    topStreetsByCategory [rNaN] "Helicopters" 3
      = topStreetsByCategory [rNaN] "Motorists" 3 :=
  topStreetsByCategory_invalid_defaults [rNaN] "Helicopters" 3
    (by decide) (by decide)

/-- `data[[c1, c2]].stack()` (`main.py` lines 128 and 144): per row, the
present cells of the two columns are emitted in column order; a missing
cell is skipped (pandas `stack` drops NaN cell-wise). -/
def stackTwo (rows : List Record) (f g : Record → Option String) : List String :=
  rows.flatMap fun r => (f r).toList ++ (g r).toList

/-- The stacked value stream of
`data[['contributing_factor_vehicle_1', 'contributing_factor_vehicle_2']]`
(`main.py` lines 127-128). -/
def factors_stream (rows : List Record) : List String :=
  stackTwo rows (fun r => r.contributing_factor_vehicle_1)
    (fun r => r.contributing_factor_vehicle_2)

/-- The stacked value stream of
`data[['vehicle_type_code_1', 'vehicle_type_code_2']]`
(`main.py` lines 143-144). -/
def vehicle_types_stream (rows : List Record) : List String :=
  stackTwo rows (fun r => r.vehicle_type_code_1)
    (fun r => r.vehicle_type_code_2)

/-- A present `Option` cell contributes one occurrence of its value to
the stream; a missing cell contributes nothing. -/
theorem count_toList (v : String) (o : Option String) :
    o.toList.count v = if o == some v then 1 else 0 := by
  rcases o with _ | w
  · simp
  · by_cases hw : w = v
    · subst hw
      simp
    · simp [List.count_cons, hw]

/-- Occurrences of `v` in the stacked stream are exactly the rows whose
first cell holds `v` plus the rows whose second cell holds `v`. -/
theorem stackTwo_count (rows : List Record) (f g : Record → Option String)
    (v : String) :
    (stackTwo rows f g).count v
      = rows.countP (fun r => f r == some v)
        + rows.countP (fun r => g r == some v) := by
  induction rows with
  | nil => simp [stackTwo]
  | cons a l ih =>
    simp only [stackTwo, List.flatMap_cons, List.count_append] at ih ⊢
    rw [ih, List.countP_cons, List.countP_cons, count_toList, count_toList]
    omega

/-- Claim C10: in the two-column stacks of `topFactors` and
`topVehicleTypes`, missing cells are dropped cell-wise — for every
value `v`, the stream holds one occurrence of `v` per row whose first
cell is `v` plus one per row whose second cell is `v`; a row with one
missing cell still contributes its present cell, and a row with both
cells missing contributes nothing. -/
theorem stack_cellwise_missing (rows : List Record) (v : String) :
    ((factors_stream rows).count v
        = rows.countP (fun r => r.contributing_factor_vehicle_1 == some v)
          + rows.countP (fun r => r.contributing_factor_vehicle_2 == some v)) ∧
      ((vehicle_types_stream rows).count v
        = rows.countP (fun r => r.vehicle_type_code_1 == some v)
          + rows.countP (fun r => r.vehicle_type_code_2 == some v)) :=
  ⟨stackTwo_count rows _ _ v, stackTwo_count rows _ _ v⟩

/-- ASCII lower-casing of one character, the effect of python's
`str.lower()` on the header characters (`main.py` line 15); characters
outside `A`-`Z` are unchanged. -/
def asciiToLower (c : Char) : Char :=
  if h : 65 ≤ c.toNat ∧ c.toNat ≤ 90 then
    Char.ofNatAux (c.toNat + 32) (Or.inl (by omega)) else c

/-- `str(x).lower()` applied to a column name (`main.py` lines 15-16). -/
def lowerName (s : String) : String := String.mk (s.data.map asciiToLower)

/-- Column-level effect of `parse_dates=[['crash_date', 'crash_time']]`
(`main.py` line 13): the two source columns are replaced by one merged
column named `crash_date_crash_time`, placed first. -/
def merge_date_cols (cols : List String) : List String :=
  "crash_date_crash_time" ::
    cols.filter fun c => !(c == "crash_date" || c == "crash_time")

/-- `data.rename(columns={"crash_date_crash_time": DATE_TIME})`
(`main.py` line 17). -/
def rename_date_col (c : String) : String :=
  if c == "crash_date_crash_time" then "date_time" else c

/-- Column-name pipeline of `load_data`: merge the date and time
columns at parse time, lower-case every name, rename the merged column
to the canonical `date_time`. -/
def load_columns (cols : List String) : List String :=
  ((merge_date_cols cols).map lowerName).map rename_date_col

/-- In the `A`-`Z` range, `asciiToLower` shifts the code point by 32. -/
theorem asciiToLower_toNat (c : Char) (h : 65 ≤ c.toNat ∧ c.toNat ≤ 90) :
    (asciiToLower c).toNat = c.toNat + 32 := by
  unfold asciiToLower
  rw [dif_pos h]
  rfl

/-- `asciiToLower` never produces an ASCII uppercase letter. -/
theorem asciiToLower_not_upper (c : Char) :
    ¬(65 ≤ (asciiToLower c).toNat ∧ (asciiToLower c).toNat ≤ 90) := by
  by_cases h : 65 ≤ c.toNat ∧ c.toNat ≤ 90
  · rw [asciiToLower_toNat c h]
    omega
  · unfold asciiToLower
    rw [dif_neg h]
    omega

/-- `load_columns` unfolded one step: the merged timestamp column is
already lower-case, so it maps to the canonical `date_time` at the
head, followed by the renamed lower-casings of the remaining columns. -/
theorem load_columns_eq (cols : List String) :
    load_columns cols
      = "date_time" ::
          ((cols.filter fun c => !(c == "crash_date" || c == "crash_time")).map
            lowerName).map rename_date_col := by
  simp only [load_columns, merge_date_cols, List.map_cons]
  congr 1

/-- Claim C4: `load_data` keeps exactly the rows with both coordinates
present (no other row is dropped, order preserved), and its schema
pipeline lower-cases every column name and replaces the two source
date/time columns by the single canonical `date_time` column.  The
hypothesis rules out unrelated input columns that collide with the
date/time names after lower-casing (the fixed CSV header satisfies
it). -/
theorem load_data_spec (rows : List Record) (cols : List String)
    (hc : ∀ c ∈ cols, c ≠ "crash_date" → c ≠ "crash_time" →
      lowerName c ≠ "crash_date" ∧ lowerName c ≠ "crash_time" ∧
        lowerName c ≠ "crash_date_crash_time") :
    (∀ r, r ∈ load_rows rows ↔
        r ∈ rows ∧ r.latitude.isSome ∧ r.longitude.isSome) ∧
      (load_rows rows).Sublist rows ∧
      (∀ c ∈ load_columns cols, ∀ ch ∈ c.data,
        ¬(65 ≤ ch.toNat ∧ ch.toNat ≤ 90)) ∧
      "date_time" ∈ load_columns cols ∧
      "crash_date" ∉ load_columns cols ∧
      "crash_time" ∉ load_columns cols ∧
      "crash_date_crash_time" ∉ load_columns cols := by
  have htail : ∀ c ∈ (cols.filter
      fun c => !(c == "crash_date" || c == "crash_time")),
      rename_date_col (lowerName c) ≠ "crash_date" ∧
        rename_date_col (lowerName c) ≠ "crash_time" ∧
        rename_date_col (lowerName c) ≠ "crash_date_crash_time" := by
    intro c hcmem
    have hmem := List.mem_filter.mp hcmem
    have hne : c ≠ "crash_date" ∧ c ≠ "crash_time" := by
      have := hmem.2
      simp only [Bool.not_eq_eq_eq_not, Bool.not_true, Bool.or_eq_false_iff,
        beq_eq_false_iff_ne] at this
      exact this
    obtain ⟨hl1, hl2, hl3⟩ := hc c hmem.1 hne.1 hne.2
    unfold rename_date_col
    rw [if_neg (by simpa using hl3)]
    exact ⟨hl1, hl2, hl3⟩
  refine ⟨?_, List.filter_sublist _, ?_, ?_, ?_, ?_, ?_⟩
  · intro r
    simp [load_rows, hasCoords, List.mem_filter, and_assoc]
  · intro c hcmem
    rw [load_columns_eq] at hcmem
    rcases List.mem_cons.mp hcmem with h | h
    · subst h
      decide
    · rcases List.mem_map.mp h with ⟨c1, hc1, hEq⟩
      rcases List.mem_map.mp hc1 with ⟨c2, hc2, hEq2⟩
      subst hEq2
      subst hEq
      intro ch hch
      unfold rename_date_col at hch
      by_cases hif : (lowerName c2 == "crash_date_crash_time") = true
      · rw [if_pos hif] at hch
        revert hch
        revert ch
        decide
      · rw [if_neg hif] at hch
        have hml : ch ∈ c2.data.map asciiToLower := hch
        rcases List.mem_map.mp hml with ⟨x, _, hx⟩
        rw [← hx]
        exact asciiToLower_not_upper x
  · rw [load_columns_eq]
    exact List.mem_cons_self _ _
  · rw [load_columns_eq]
    intro hmem
    rcases List.mem_cons.mp hmem with h | h
    · exact absurd h (by decide)
    · rcases List.mem_map.mp h with ⟨c1, hc1, hEq⟩
      rcases List.mem_map.mp hc1 with ⟨c2, hc2, hEq2⟩
      exact (htail c2 hc2).1 (hEq2 ▸ hEq)
  · rw [load_columns_eq]
    intro hmem
    rcases List.mem_cons.mp hmem with h | h
    · exact absurd h (by decide)
    · rcases List.mem_map.mp h with ⟨c1, hc1, hEq⟩
      rcases List.mem_map.mp hc1 with ⟨c2, hc2, hEq2⟩
      exact (htail c2 hc2).2.1 (hEq2 ▸ hEq)
  · rw [load_columns_eq]
    intro hmem
    rcases List.mem_cons.mp hmem with h | h
    · exact absurd h (by decide)
    · rcases List.mem_map.mp h with ⟨c1, hc1, hEq⟩
      rcases List.mem_map.mp hc1 with ⟨c2, hc2, hEq2⟩
      exact (htail c2 hc2).2.2 (hEq2 ▸ hEq)

/-- The fixed header of the input file (spec §6), in source spelling. -/
def csv_header : List String :=
  ["crash_date", "crash_time", "borough", "latitude", "longitude",
   "injured_persons", "number_of_persons_injured",
   "number_of_pedestrians_injured", "number_of_cyclist_injured",
   "number_of_motorist_injured", "number_of_persons_killed",
   "on_street_name", "contributing_factor_vehicle_1",
   "contributing_factor_vehicle_2", "vehicle_type_code_1",
   "vehicle_type_code_2"]

/-- A raw row with a missing latitude, used to witness the
drop-on-load. -/
def rNoCoord : Record :=
  ⟨100, none, some 7, some 2, none, none, none, some 0,
   none, some "MAIN ST", none, none, none, none⟩

/-- Witness for C4 at the two-row raw table `[rInj, rNoCoord]` and the
fixed CSV header. -/
theorem load_data_spec_witness :
    (∀ r, r ∈ load_rows [rInj, rNoCoord] ↔
        r ∈ [rInj, rNoCoord] ∧ r.latitude.isSome ∧ r.longitude.isSome) ∧
      (load_rows [rInj, rNoCoord]).Sublist [rInj, rNoCoord] ∧
      (∀ c ∈ load_columns csv_header, ∀ ch ∈ c.data,
        ¬(65 ≤ ch.toNat ∧ ch.toNat ≤ 90)) ∧
      "date_time" ∈ load_columns csv_header ∧
      "crash_date" ∉ load_columns csv_header ∧
      "crash_time" ∉ load_columns csv_header ∧
      "crash_date_crash_time" ∉ load_columns csv_header :=
  load_data_spec [rInj, rNoCoord] csv_header (by decide)

/-- The column list fed to `.corr()` (`main.py` line 135). -/
def numerical_features : List String :=
  ["number_of_persons_killed", "number_of_pedestrians_injured",
   "number_of_cyclist_injured", "number_of_motorist_injured"]

/-- Mean of a numeric column (float arithmetic idealised as exact
rationals). -/
def colMean (xs : List ℚ) : ℚ := xs.sum / xs.length

/-- Sum of products of deviations from the means, the shared numerator
form of the Pearson computation: for `ys = xs` this is the (unscaled)
variance numerator. -/
def demeanedSum (xs ys : List ℚ) : ℚ :=
  ((xs.zip ys).map fun p => (p.1 - colMean xs) * (p.2 - colMean ys)).sum

/-- Pearson correlation coefficient of two columns, as computed by
`DataFrame.corr()` (`main.py` line 136):
`Σ dx·dy / sqrt(Σ dx² · Σ dy²)`; the square root lives in `ℝ`. -/
noncomputable def pearson (xs ys : List ℚ) : ℝ :=
  (demeanedSum xs ys : ℝ)
    / Real.sqrt ((demeanedSum xs xs : ℝ) * (demeanedSum ys ys : ℝ))

/-- `data[numerical_features].corr()` as a matrix over the selected
columns: entry `(i, j)` is the Pearson correlation of columns `i` and
`j`. -/
noncomputable def correlation_matrix (cols : List (List ℚ))
    (i j : Fin cols.length) : ℝ :=
  pearson (cols.get i) (cols.get j)

/-- The variance numerator is a sum of squares, hence nonnegative. -/
theorem demeanedSum_self_nonneg (xs : List ℚ) : 0 ≤ demeanedSum xs xs := by
  unfold demeanedSum
  have hAll : ∀ (l : List ℚ) (a : ℚ),
      0 ≤ ((l.zip l).map fun p => (p.1 - a) * (p.2 - a)).sum := by
    intro l a
    induction l with
    | nil => simp
    | cons x l ih =>
      simp only [List.zip_cons_cons, List.map_cons, List.sum_cons]
      exact add_nonneg (mul_self_nonneg _) ih
  exact hAll xs (colMean xs)

/-- The Pearson numerator is symmetric in its two columns. -/
theorem demeanedSum_comm (xs ys : List ℚ) :
    demeanedSum xs ys = demeanedSum ys xs := by
  unfold demeanedSum
  have hAll : ∀ (l1 l2 : List ℚ) (a b : ℚ),
      ((l1.zip l2).map fun p => (p.1 - a) * (p.2 - b)).sum
        = ((l2.zip l1).map fun p => (p.1 - b) * (p.2 - a)).sum := by
    intro l1
    induction l1 with
    | nil => intro l2 a b; simp
    | cons x l ih =>
      intro l2 a b
      cases l2 with
      | nil => simp
      | cons y l2 =>
        simp only [List.zip_cons_cons, List.map_cons, List.sum_cons]
        rw [ih l2 a b, mul_comm]
  exact hAll xs ys _ _

/-- A column correlates perfectly with itself once its variance
numerator is nonzero. -/
theorem pearson_self (xs : List ℚ) (h : demeanedSum xs xs ≠ 0) :
    pearson xs xs = 1 := by
  unfold pearson
  rw [Real.sqrt_mul_self (by exact_mod_cast demeanedSum_self_nonneg xs)]
  rw [div_self (by exact_mod_cast h)]

/-- Pearson correlation is symmetric. -/
theorem pearson_comm (xs ys : List ℚ) : pearson xs ys = pearson ys xs := by
  unfold pearson
  rw [demeanedSum_comm xs ys, mul_comm]

/-- Claim C8: when every selected column has a nonzero variance
numerator, the correlation matrix is symmetric and every diagonal
entry equals 1. -/
theorem correlation_matrix_spec (cols : List (List ℚ)) (i j : Fin cols.length)
    (hvar : ∀ k : Fin cols.length,
      demeanedSum (cols.get k) (cols.get k) ≠ 0) :
    correlation_matrix cols i j = correlation_matrix cols j i ∧
      correlation_matrix cols i i = 1 :=
  ⟨pearson_comm _ _, pearson_self _ (hvar i)⟩

/-- Witness for C8 at the single column `[0, 1]` (variance numerator
`1/2`). -/
theorem correlation_matrix_spec_witness :
    (correlation_matrix [[(0 : ℚ), 1]] ⟨0, Nat.zero_lt_one⟩ ⟨0, Nat.zero_lt_one⟩
        = correlation_matrix [[(0 : ℚ), 1]] ⟨0, Nat.zero_lt_one⟩
            ⟨0, Nat.zero_lt_one⟩) ∧
      correlation_matrix [[(0 : ℚ), 1]] ⟨0, Nat.zero_lt_one⟩
          ⟨0, Nat.zero_lt_one⟩ = 1 :=
  correlation_matrix_spec [[(0 : ℚ), 1]] ⟨0, Nat.zero_lt_one⟩
    ⟨0, Nat.zero_lt_one⟩
    (fun k => by
      have hk : k = ⟨0, Nat.zero_lt_one⟩ :=
        Fin.ext (Nat.lt_one_iff.mp k.isLt)
      subst hk
      show demeanedSum [(0 : ℚ), 1] [0, 1] ≠ 0
      norm_num [demeanedSum, colMean, List.zip])

end Collisions
